import Mathlib

/-!
Formal model of the edge-device telemetry system:
the receiver (`src/edge/app.py`: `MessageCache`, the `/ingest` endpoint) and
the sender (`src/device/simulated_device.py`: error classification,
retry/backoff loop, fault injection, main loop).

Timestamps (Python `time.time()` floats) are modelled as rationals.
A Python dict is modelled as a partial map `String → Option ℚ`.
-/

namespace Telemetry

/-- Outcome of one ingest request, as surfaced by the HTTP status:
200 Accepted, 409 DuplicateAcknowledged, 400 Rejected(invalid),
503 Overloaded. -/
inductive Outcome where
  | Accepted
  | DuplicateAcknowledged
  | RejectedInvalid
  | Overloaded
deriving DecidableEq, Repr

/-- `MessageCache` from `src/edge/app.py`: a TTL-based cache mapping the
string key `f"{device_id}:{sequence_id}"` to its expiry timestamp. -/
structure MessageCache where
  cache : String → Option ℚ
  ttl_seconds : ℚ

/-- The cache key `f"{device_id}:{sequence_id}"`. -/
def mkKey (device_id : String) (sequence_id : ℤ) : String :=
  device_id ++ ":" ++ toString sequence_id

/-- `MessageCache.__init__`: empty dict, given TTL. -/
def MessageCache.init (ttl_seconds : ℚ) : MessageCache :=
  { cache := fun _ => none, ttl_seconds := ttl_seconds }

/-- `MessageCache._cleanup`: delete every entry whose expiry `v` satisfies
`v < now` (strictly). -/
def MessageCache.cleanup (c : MessageCache) (now : ℚ) : MessageCache :=
  { c with cache := fun k =>
      match c.cache k with
      | some v => if v < now then none else some v
      | none => none }

/-- `MessageCache.has_seen`: run `_cleanup`, then test key membership.
Returns the answer together with the mutated cache. -/
def MessageCache.has_seen (c : MessageCache) (now : ℚ) (d : String) (s : ℤ) :
    Bool × MessageCache :=
  let c2 := c.cleanup now
  ((c2.cache (mkKey d s)).isSome, c2)

/-- `MessageCache.mark_seen`: insert or overwrite the key with expiry
`now + ttl_seconds`. -/
def MessageCache.mark_seen (c : MessageCache) (now : ℚ) (d : String) (s : ℤ) :
    MessageCache :=
  { c with cache := fun k =>
      if k = mkKey d s then some (now + c.ttl_seconds) else c.cache k }

/-- One incoming request to `/ingest`: the message fields the engine reads,
the sampled overload coin (`random.random() < OVERLOAD_PROBABILITY`), and the
wall-clock time at which the request is served. -/
structure IngestInput where
  device_id : String
  sequence_id : ℤ
  overload : Bool
  now : ℚ

/-- `ingest_telemetry` from `src/edge/app.py`, gates in source order:
overload (503), validation `sequence_id < 0` (400), dedup via `has_seen`
(409), else `mark_seen` and accept (200). Returns the outcome and the
updated cache. -/
def ingest_telemetry (c : MessageCache) (inp : IngestInput) : Outcome × MessageCache :=
  if inp.overload then (.Overloaded, c)
  else if inp.sequence_id < 0 then (.RejectedInvalid, c)
  else
    let hs := c.has_seen inp.now inp.device_id inp.sequence_id
    if hs.1 then (.DuplicateAcknowledged, hs.2)
    else (.Accepted, hs.2.mark_seen inp.now inp.device_id inp.sequence_id)

/-- Run a sequence of ingest requests, threading the cache; return the final
cache. -/
def runCache (c : MessageCache) : List IngestInput → MessageCache
  | [] => c
  | inp :: rest => runCache (ingest_telemetry c inp).2 rest

/-- Run a chain of `has_seen` queries for a fixed key at the given times,
threading the cache (each query performs its lazy cleanup); collect the
answers. -/
def hasSeenRun (c : MessageCache) (d : String) (s : ℤ) : List ℚ → List Bool
  | [] => []
  | t :: ts =>
    let r := c.has_seen t d s
    r.1 :: hasSeenRun r.2 d s ts

/-! ### Basic cache lemmas -/

theorem cleanup_cache_eq (c : MessageCache) (now : ℚ) (k : String) :
    (c.cleanup now).cache k =
      match c.cache k with
      | some v => if v < now then none else some v
      | none => none := rfl

theorem cleanup_ttl (c : MessageCache) (now : ℚ) :
    (c.cleanup now).ttl_seconds = c.ttl_seconds := rfl

theorem mark_seen_ttl (c : MessageCache) (now : ℚ) (d : String) (s : ℤ) :
    (c.mark_seen now d s).ttl_seconds = c.ttl_seconds := rfl

theorem has_seen_ttl (c : MessageCache) (now : ℚ) (d : String) (s : ℤ) :
    (c.has_seen now d s).2.ttl_seconds = c.ttl_seconds := rfl

theorem ingest_ttl (c : MessageCache) (inp : IngestInput) :
    (ingest_telemetry c inp).2.ttl_seconds = c.ttl_seconds := by
  unfold ingest_telemetry
  split
  · rfl
  · split
    · rfl
    · dsimp only
      split
      · rfl
      · rfl

theorem runCache_ttl (c : MessageCache) (inputs : List IngestInput) :
    (runCache c inputs).ttl_seconds = c.ttl_seconds := by
  induction inputs generalizing c with
  | nil => rfl
  | cons inp rest ih =>
    rw [runCache, ih, ingest_ttl]

/-- An unexpired entry survives a cleanup at time `now ≤ e`. -/
theorem cleanup_keeps (c : MessageCache) (now : ℚ) (k : String) (e : ℚ)
    (hk : c.cache k = some e) (hle : now ≤ e) :
    (c.cleanup now).cache k = some e := by
  rw [cleanup_cache_eq, hk]
  simp [not_lt.2 hle]

theorem has_seen_fst_eq (c : MessageCache) (now : ℚ) (d : String) (s : ℤ) :
    (c.has_seen now d s).1 = ((c.cleanup now).cache (mkKey d s)).isSome := rfl

theorem has_seen_snd_eq (c : MessageCache) (now : ℚ) (d : String) (s : ℤ) :
    (c.has_seen now d s).2 = c.cleanup now := rfl

theorem mark_seen_cache_self (c : MessageCache) (now : ℚ) (d : String) (s : ℤ) :
    (c.mark_seen now d s).cache (mkKey d s) = some (now + c.ttl_seconds) := by
  unfold MessageCache.mark_seen
  simp

theorem mark_seen_cache_other (c : MessageCache) (now : ℚ) (d : String) (s : ℤ)
    (k : String) (hk : k ≠ mkKey d s) :
    (c.mark_seen now d s).cache k = c.cache k := by
  unfold MessageCache.mark_seen
  simp [hk]

/-- Cleanup never invents entries: anything present afterwards was present
before with the same expiry. -/
theorem cleanup_subset (c : MessageCache) (now : ℚ) (k : String) (e : ℚ)
    (h : (c.cleanup now).cache k = some e) : c.cache k = some e := by
  rw [cleanup_cache_eq] at h
  revert h
  cases hck : c.cache k with
  | none => intro h; simp at h
  | some v =>
    intro h
    by_cases hv : v < now
    · simp [hv] at h
    · simp [hv] at h
      rw [h]

/-! ### Branch characterization of `ingest_telemetry` -/

theorem ingest_overloaded (c : MessageCache) (inp : IngestInput)
    (h : inp.overload = true) : ingest_telemetry c inp = (.Overloaded, c) := by
  unfold ingest_telemetry
  simp [h]

theorem ingest_invalid (c : MessageCache) (inp : IngestInput)
    (hov : inp.overload = false) (hs : inp.sequence_id < 0) :
    ingest_telemetry c inp = (.RejectedInvalid, c) := by
  unfold ingest_telemetry
  simp [hov, hs]

theorem ingest_duplicate_of_seen (c : MessageCache) (inp : IngestInput) (e : ℚ)
    (hov : inp.overload = false) (hsq : 0 ≤ inp.sequence_id)
    (hk : c.cache (mkKey inp.device_id inp.sequence_id) = some e)
    (hle : inp.now ≤ e) :
    ingest_telemetry c inp = (.DuplicateAcknowledged, c.cleanup inp.now) := by
  unfold ingest_telemetry
  have hseen : (c.has_seen inp.now inp.device_id inp.sequence_id).1 = true := by
    show ((c.cleanup inp.now).cache (mkKey inp.device_id inp.sequence_id)).isSome = true
    rw [cleanup_keeps c inp.now _ e hk hle]
    rfl
  simp [hov, not_lt.2 hsq, hseen]
  rfl

theorem ingest_accept_of_unseen (c : MessageCache) (inp : IngestInput)
    (hov : inp.overload = false) (hsq : 0 ≤ inp.sequence_id)
    (hk : (c.cleanup inp.now).cache (mkKey inp.device_id inp.sequence_id) = none) :
    ingest_telemetry c inp =
      (.Accepted,
       (c.cleanup inp.now).mark_seen inp.now inp.device_id inp.sequence_id) := by
  unfold ingest_telemetry
  have hseen : (c.has_seen inp.now inp.device_id inp.sequence_id).1 = false := by
    show ((c.cleanup inp.now).cache (mkKey inp.device_id inp.sequence_id)).isSome = false
    rw [hk]
    rfl
  simp [hov, not_lt.2 hsq, hseen]
  rfl

/-- Whenever the engine accepts, the updated cache holds the message's key
with expiry `now + TTL`. -/
theorem ingest_accepted_cache (c : MessageCache) (inp : IngestInput)
    (h : (ingest_telemetry c inp).1 = .Accepted) :
    (ingest_telemetry c inp).2.cache (mkKey inp.device_id inp.sequence_id) =
      some (inp.now + c.ttl_seconds) := by
  rcases Bool.eq_false_or_eq_true inp.overload with hov | hov
  · rw [ingest_overloaded c inp hov] at h
    simp at h
  · by_cases hsq : inp.sequence_id < 0
    · rw [ingest_invalid c inp hov hsq] at h
      simp at h
    · push_neg at hsq
      by_cases hseen :
          ((c.cleanup inp.now).cache (mkKey inp.device_id inp.sequence_id)).isSome = true
      · exfalso
        rw [Option.isSome_iff_exists] at hseen
        obtain ⟨e, he⟩ := hseen
        rw [ingest_duplicate_of_seen c inp e hov hsq (cleanup_subset c inp.now _ e he)
          (by
            have := cleanup_subset c inp.now _ e he
            rw [cleanup_cache_eq, this] at he
            by_contra hno
            push_neg at hno
            simp [hno] at he)] at h
        simp at h
      · have hk : (c.cleanup inp.now).cache (mkKey inp.device_id inp.sequence_id) = none := by
          cases hck : (c.cleanup inp.now).cache (mkKey inp.device_id inp.sequence_id) with
          | none => rfl
          | some v => rw [hck] at hseen; simp at hseen
        rw [ingest_accept_of_unseen c inp hov hsq hk]
        dsimp only
        rw [mark_seen_cache_self, cleanup_ttl]

/-- Whenever the engine accepts, any entry for that key in the pre-state was
already expired (strictly before `now`). -/
theorem ingest_accepted_expired (c : MessageCache) (inp : IngestInput) (e : ℚ)
    (h : (ingest_telemetry c inp).1 = .Accepted)
    (hk : c.cache (mkKey inp.device_id inp.sequence_id) = some e) :
    e < inp.now := by
  by_contra hlt
  push_neg at hlt
  rcases Bool.eq_false_or_eq_true inp.overload with hov | hov
  · rw [ingest_overloaded c inp hov] at h
    simp at h
  · by_cases hsq : inp.sequence_id < 0
    · rw [ingest_invalid c inp hov hsq] at h
      simp at h
    · push_neg at hsq
      rw [ingest_duplicate_of_seen c inp e hov hsq hk hlt] at h
      simp at h

/-- An unexpired entry is untouched by any single ingest step served at a
time not past its expiry. -/
theorem ingest_preserves_entry (c : MessageCache) (inp : IngestInput)
    (k : String) (e : ℚ) (hk : c.cache k = some e) (hle : inp.now ≤ e) :
    (ingest_telemetry c inp).2.cache k = some e := by
  unfold ingest_telemetry
  split
  · exact hk
  · split
    · exact hk
    · dsimp only
      split
      · rw [has_seen_snd_eq]
        exact cleanup_keeps c inp.now k e hk hle
      · rw [has_seen_snd_eq]
        by_cases hkey : k = mkKey inp.device_id inp.sequence_id
        · exfalso
          rename_i hseen
          apply hseen
          show ((c.cleanup inp.now).cache (mkKey inp.device_id inp.sequence_id)).isSome = true
          rw [← hkey, cleanup_keeps c inp.now k e hk hle]
          rfl
        · rw [mark_seen_cache_other _ _ _ _ _ hkey]
          exact cleanup_keeps c inp.now k e hk hle

/-- An unexpired entry survives a whole run of ingest steps all served at
times not past its expiry. -/
theorem runCache_preserves_entry (inputs : List IngestInput) (c : MessageCache)
    (k : String) (e : ℚ) (hk : c.cache k = some e)
    (hts : ∀ inp ∈ inputs, inp.now ≤ e) :
    (runCache c inputs).cache k = some e := by
  induction inputs generalizing c with
  | nil => exact hk
  | cons inp rest ih =>
    rw [runCache]
    exact ih _ (ingest_preserves_entry c inp k e hk (hts inp (by simp)))
      (fun i hi => hts i (by simp [hi]))

theorem cleanup_cache_some_iff (c : MessageCache) (now : ℚ) (k : String) (e : ℚ) :
    (c.cleanup now).cache k = some e ↔ c.cache k = some e ∧ now ≤ e := by
  constructor
  · intro h
    have hpre := cleanup_subset c now k e h
    refine ⟨hpre, ?_⟩
    rw [cleanup_cache_eq, hpre] at h
    by_contra hno
    push_neg at hno
    simp [hno] at h
  · rintro ⟨h1, h2⟩
    exact cleanup_keeps c now k e h1 h2

/-- When the outcome is a duplicate acknowledgment, the cache state after the
request is exactly the lazily-cleaned pre-state. -/
theorem ingest_duplicate_snd (c : MessageCache) (inp : IngestInput)
    (h : (ingest_telemetry c inp).1 = .DuplicateAcknowledged) :
    (ingest_telemetry c inp).2 = c.cleanup inp.now := by
  rcases Bool.eq_false_or_eq_true inp.overload with hov | hov
  · rw [ingest_overloaded c inp hov] at h
    simp at h
  · by_cases hsq : inp.sequence_id < 0
    · rw [ingest_invalid c inp hov hsq] at h
      simp at h
    · push_neg at hsq
      by_cases hseen :
          ((c.cleanup inp.now).cache (mkKey inp.device_id inp.sequence_id)).isSome = true
      · rw [Option.isSome_iff_exists] at hseen
        obtain ⟨v, hv⟩ := hseen
        rw [cleanup_cache_some_iff] at hv
        rw [ingest_duplicate_of_seen c inp v hov hsq hv.1 hv.2]
      · have hk : (c.cleanup inp.now).cache (mkKey inp.device_id inp.sequence_id) = none := by
          cases hck : (c.cleanup inp.now).cache (mkKey inp.device_id inp.sequence_id) with
          | none => rfl
          | some v => rw [hck] at hseen; simp at hseen
        rw [ingest_accept_of_unseen c inp hov hsq hk] at h
        simp at h

/-- A chain of `has_seen` queries all answer `true` while the key's entry is
unexpired at each query time; the entry survives the whole chain. -/
theorem hasSeenRun_all_true (d : String) (s : ℤ) (e : ℚ) (ts : List ℚ)
    (c : MessageCache) (hk : c.cache (mkKey d s) = some e)
    (hts : ∀ t ∈ ts, t ≤ e) :
    ∀ b ∈ hasSeenRun c d s ts, b = true := by
  induction ts generalizing c with
  | nil => intro b hb; simp [hasSeenRun] at hb
  | cons t ts ih =>
    intro b hb
    rw [hasSeenRun] at hb
    have hkeep : ((c.cleanup t).cache (mkKey d s)) = some e :=
      cleanup_keeps c t _ e hk (hts t (by simp))
    rcases List.mem_cons.1 hb with hb0 | hbrest
    · rw [hb0, has_seen_fst_eq, hkeep]
      rfl
    · exact ih ((c.has_seen t d s).2)
        (by rw [has_seen_snd_eq]; exact hkeep)
        (fun t2 ht2 => hts t2 (by simp [ht2])) b hbrest

/-! ### Claim theorems: receiver -/

/-- Claim C1: with the overload gate quiet and a non-negative sequence id,
submitting the same `(device_id, sequence_id)` message twice in sequence,
the second within the TTL of the first, yields `Accepted` then
`DuplicateAcknowledged`; in any run of the engine two `Accepted` outcomes
for the same key are separated by more than one TTL; and a
`DuplicateAcknowledged` outcome never adds or refreshes a cache entry. -/
theorem C1_dedup_engine :
    (∀ (ttl t1 t2 : ℚ) (d : String) (s : ℤ), 0 ≤ s → t2 ≤ t1 + ttl →
      (ingest_telemetry (MessageCache.init ttl) ⟨d, s, false, t1⟩).1 = .Accepted ∧
      (ingest_telemetry (ingest_telemetry (MessageCache.init ttl) ⟨d, s, false, t1⟩).2
        ⟨d, s, false, t2⟩).1 = .DuplicateAcknowledged) ∧
    (∀ (c : MessageCache) (xs ys : List IngestInput) (a b : IngestInput),
      a.device_id = b.device_id → a.sequence_id = b.sequence_id →
      (∀ y ∈ ys, y.now ≤ b.now) →
      (ingest_telemetry (runCache c xs) a).1 = .Accepted →
      (ingest_telemetry (runCache (ingest_telemetry (runCache c xs) a).2 ys) b).1 =
        .Accepted →
      a.now + c.ttl_seconds < b.now) ∧
    (∀ (c : MessageCache) (inp : IngestInput) (k : String) (e : ℚ),
      (ingest_telemetry c inp).1 = .DuplicateAcknowledged →
      (ingest_telemetry c inp).2.cache k = some e → c.cache k = some e) := by
  refine ⟨?_, ?_, ?_⟩
  · intro ttl t1 t2 d s hs hle
    have h1 : ingest_telemetry (MessageCache.init ttl) ⟨d, s, false, t1⟩ =
        (.Accepted,
         ((MessageCache.init ttl).cleanup t1).mark_seen t1 d s) :=
      ingest_accept_of_unseen _ _ rfl hs rfl
    refine ⟨by rw [h1], ?_⟩
    rw [h1]
    have hk : (((MessageCache.init ttl).cleanup t1).mark_seen t1 d s).cache (mkKey d s) =
        some (t1 + ttl) := by
      rw [mark_seen_cache_self, cleanup_ttl]
      rfl
    rw [ingest_duplicate_of_seen _ _ (t1 + ttl) rfl hs hk hle]
  · intro c xs ys a b hd hs hys hacc1 hacc2
    by_contra hno
    push_neg at hno
    have hkey : (ingest_telemetry (runCache c xs) a).2.cache
        (mkKey a.device_id a.sequence_id) = some (a.now + c.ttl_seconds) := by
      have h := ingest_accepted_cache (runCache c xs) a hacc1
      rw [runCache_ttl] at h
      exact h
    have hkey2 : (runCache (ingest_telemetry (runCache c xs) a).2 ys).cache
        (mkKey a.device_id a.sequence_id) = some (a.now + c.ttl_seconds) :=
      runCache_preserves_entry ys _ _ _ hkey (fun y hy => le_trans (hys y hy) hno)
    have hexp : a.now + c.ttl_seconds < b.now := by
      refine ingest_accepted_expired _ b (a.now + c.ttl_seconds) hacc2 ?_
      rw [← hd, ← hs]
      exact hkey2
    exact absurd hexp (not_lt.2 hno)
  · intro c inp k e hdup hpost
    rw [ingest_duplicate_snd c inp hdup] at hpost
    exact cleanup_subset c inp.now k e hpost

/-- Witness for C1 at concrete inputs: TTL 300, key `device-001:7`,
submissions at times 0 and 100; a run of two accepts separated by more than
one TTL; and a concrete duplicate request leaving the entry intact. -/
theorem C1_dedup_engine_witness :
    ((ingest_telemetry (MessageCache.init 300) ⟨"device-001", 7, false, 0⟩).1 =
        .Accepted ∧
      (ingest_telemetry
        (ingest_telemetry (MessageCache.init 300) ⟨"device-001", 7, false, 0⟩).2
        ⟨"device-001", 7, false, 100⟩).1 = .DuplicateAcknowledged) ∧
    ((0 : ℚ) + (MessageCache.init 300).ttl_seconds < 400) ∧
    ((MessageCache.init 300).mark_seen 0 "device-001" 7).cache (mkKey "device-001" 7) =
      some (0 + 300) := by
  refine ⟨C1_dedup_engine.1 300 0 100 "device-001" 7 (by decide)
    (by rw [zero_add]; decide), ?_, ?_⟩
  · have hk2 : (((ingest_telemetry (runCache (MessageCache.init 300) [])
        ⟨"device-001", 7, false, 0⟩).2).cleanup 400).cache (mkKey "device-001" 7) =
          none := by
      have hc : ((ingest_telemetry (runCache (MessageCache.init 300) [])
          ⟨"device-001", 7, false, 0⟩).2).cache (mkKey "device-001" 7) =
            some ((0 : ℚ) + 300) := rfl
      have hlt : ((0 : ℚ) + 300) < 400 := by rw [zero_add]; decide
      rw [cleanup_cache_eq, hc]
      simp [hlt]
      decide
    have hacc1 := ingest_accept_of_unseen (runCache (MessageCache.init 300) [])
      ⟨"device-001", 7, false, 0⟩ rfl (by decide) rfl
    have hacc2 := ingest_accept_of_unseen
      (runCache (ingest_telemetry (runCache (MessageCache.init 300) [])
        ⟨"device-001", 7, false, 0⟩).2 [])
      ⟨"device-001", 7, false, 400⟩ rfl (by decide) hk2
    exact C1_dedup_engine.2.1 (MessageCache.init 300) [] []
      ⟨"device-001", 7, false, 0⟩ ⟨"device-001", 7, false, 400⟩ rfl rfl
      (by intro y hy; simp at hy)
      (by rw [hacc1]) (by rw [hacc2])
  · have hle : (50 : ℚ) ≤ 0 + 300 := by rw [zero_add]; decide
    have hdup : ingest_telemetry ((MessageCache.init 300).mark_seen 0 "device-001" 7)
        ⟨"device-001", 7, false, 50⟩ =
          (.DuplicateAcknowledged,
           ((MessageCache.init 300).mark_seen 0 "device-001" 7).cleanup 50) :=
      ingest_duplicate_of_seen _ _ (0 + 300) rfl (by decide) rfl hle
    exact C1_dedup_engine.2.2 ((MessageCache.init 300).mark_seen 0 "device-001" 7)
      ⟨"device-001", 7, false, 50⟩ (mkKey "device-001" 7) (0 + 300)
      (by rw [hdup]) (by rw [hdup]; exact cleanup_keeps _ 50 _ (0 + 300) rfl hle)

/-- Claim C4: after `mark_seen(d, s)` at time `t0`, every `has_seen(d, s)`
query in a chain of queries made before the TTL has elapsed answers `true`;
once the TTL has elapsed, `has_seen` (whose lazy cleanup pass runs first)
answers `false`; and `mark_seen` on an already-present key overwrites the
entry, refreshing its expiry to the marking time plus TTL. -/
theorem C4_dedup_cache_ttl :
    (∀ (c : MessageCache) (d : String) (s : ℤ) (t0 : ℚ) (ts : List ℚ),
      (∀ t ∈ ts, t < t0 + c.ttl_seconds) →
      ∀ b ∈ hasSeenRun (c.mark_seen t0 d s) d s ts, b = true) ∧
    (∀ (c : MessageCache) (d : String) (s : ℤ) (t0 t : ℚ),
      t0 + c.ttl_seconds < t →
      ((c.mark_seen t0 d s).has_seen t d s).1 = false) ∧
    (∀ (c : MessageCache) (d : String) (s : ℤ) (t0 t1 : ℚ),
      ((c.mark_seen t0 d s).mark_seen t1 d s).cache (mkKey d s) =
        some (t1 + c.ttl_seconds)) := by
  refine ⟨?_, ?_, ?_⟩
  · intro c d s t0 ts hts
    exact hasSeenRun_all_true d s (t0 + c.ttl_seconds) ts _
      (by rw [mark_seen_cache_self]) (fun t ht => le_of_lt (hts t ht))
  · intro c d s t0 t hlt
    rw [has_seen_fst_eq, cleanup_cache_eq, mark_seen_cache_self]
    simp [hlt]
  · intro c d s t0 t1
    rw [mark_seen_cache_self, mark_seen_ttl]

/-- Witness for C4: TTL 300, mark at time 0, queries at times 100 and 200
answer true; a query at time 400 answers false; re-marking at time 50
refreshes the expiry to `50 + 300`. -/
theorem C4_dedup_cache_ttl_witness :
    (∀ b ∈ hasSeenRun ((MessageCache.init 300).mark_seen 0 "device-001" 7)
      "device-001" 7 [100, 200], b = true) ∧
    (((MessageCache.init 300).mark_seen 0 "device-001" 7).has_seen 400
      "device-001" 7).1 = false ∧
    (((MessageCache.init 300).mark_seen 0 "device-001" 7).mark_seen 50
      "device-001" 7).cache (mkKey "device-001" 7) =
        some (50 + (MessageCache.init 300).ttl_seconds) := by
  refine ⟨?_, ?_, ?_⟩
  · exact C4_dedup_cache_ttl.1 (MessageCache.init 300) "device-001" 7 0 [100, 200]
      (by
        intro t ht
        rw [zero_add]
        rcases List.mem_cons.1 ht with h | h
        · subst h; decide
        · rw [List.mem_singleton] at h; subst h; decide)
  · exact C4_dedup_cache_ttl.2.1 (MessageCache.init 300) "device-001" 7 0 400
      (by rw [zero_add]; decide)
  · exact C4_dedup_cache_ttl.2.2 (MessageCache.init 300) "device-001" 7 0 50

/-- Claim C5: with the overload gate quiet, a message with a negative
sequence id is rejected as invalid (HTTP 400) whatever the dedup cache
holds, the cache is neither consulted (the outcome is identical for every
cache state) nor mutated, and the receiver remembers nothing. -/
theorem C5_invalid_sequence_rejected :
    ∀ (c c' : MessageCache) (inp : IngestInput),
      inp.overload = false → inp.sequence_id < 0 →
      ingest_telemetry c inp = (.RejectedInvalid, c) ∧
      (ingest_telemetry c inp).1 = (ingest_telemetry c' inp).1 := by
  intro c c' inp hov hneg
  rw [ingest_invalid c inp hov hneg, ingest_invalid c' inp hov hneg]
  exact ⟨rfl, rfl⟩

/-- Witness for C5: sequence id `-1` at time 10, once against a cache that
even holds the key `device-001:-1` and once against the empty cache: both
rejected as invalid, state untouched. -/
theorem C5_invalid_sequence_rejected_witness :
    ingest_telemetry ((MessageCache.init 300).mark_seen 0 "device-001" (-1))
        ⟨"device-001", -1, false, 10⟩ =
      (.RejectedInvalid, (MessageCache.init 300).mark_seen 0 "device-001" (-1)) ∧
    (ingest_telemetry ((MessageCache.init 300).mark_seen 0 "device-001" (-1))
        ⟨"device-001", -1, false, 10⟩).1 =
      (ingest_telemetry (MessageCache.init 300) ⟨"device-001", -1, false, 10⟩).1 :=
  C5_invalid_sequence_rejected ((MessageCache.init 300).mark_seen 0 "device-001" (-1))
    (MessageCache.init 300) ⟨"device-001", -1, false, 10⟩ rfl (by decide)

/-- Claim C10: expiry is strict. The cleanup sweep removes an entry exactly
when its expiry is strictly less than the current time, and `has_seen` still
answers `true` when the current time equals the entry's expiry instant. -/
theorem C10_strict_expiry :
    (∀ (c : MessageCache) (now : ℚ) (k : String) (e : ℚ),
      c.cache k = some e → ((c.cleanup now).cache k = none ↔ e < now)) ∧
    (∀ (c : MessageCache) (now : ℚ) (d : String) (s : ℤ) (e : ℚ),
      c.cache (mkKey d s) = some e →
      ((c.has_seen now d s).1 = true ↔ now ≤ e)) := by
  constructor
  · intro c now k e hk
    rw [cleanup_cache_eq, hk]
    constructor
    · intro h
      by_contra hno
      simp [hno] at h
    · intro h
      simp [h]
  · intro c now d s e hk
    rw [has_seen_fst_eq, cleanup_cache_eq, hk]
    constructor
    · intro h
      by_contra hno
      push_neg at hno
      simp [hno] at h
    · intro h
      simp [not_lt.2 h]

/-- Witness for C10: an entry with expiry `0 + 300`; the cleanup sweep at
time 500 removes it (since its expiry has strictly passed), while
`has_seen` at time exactly 300 still answers true. -/
theorem C10_strict_expiry_witness :
    ((((MessageCache.init 300).mark_seen 0 "device-001" 7).cleanup 500).cache
        (mkKey "device-001" 7) = none ↔ (0 : ℚ) + 300 < 500) ∧
    ((((MessageCache.init 300).mark_seen 0 "device-001" 7).has_seen 300
        "device-001" 7).1 = true ↔ (300 : ℚ) ≤ 0 + 300) :=
  ⟨C10_strict_expiry.1 ((MessageCache.init 300).mark_seen 0 "device-001" 7) 500
      (mkKey "device-001" 7) (0 + 300) rfl,
   C10_strict_expiry.2 ((MessageCache.init 300).mark_seen 0 "device-001" 7) 300
      "device-001" 7 (0 + 300) rfl⟩

/-! ### Sender model (`src/device/simulated_device.py`) -/

/-- Retry configuration constants from `src/device/simulated_device.py`. -/
def MAX_RETRIES : ℕ := 5

def BASE_BACKOFF_SECONDS : ℚ := 1

def MAX_BACKOFF_SECONDS : ℚ := 30

def BACKOFF_JITTER_RANGE : ℚ := 1/2

/-- The transport-level exception kinds distinguished by the sender
(`requests.exceptions.Timeout`, `requests.exceptions.ConnectionError`),
plus a catch-all for any other exception. -/
inductive SendException where
  | timeout
  | connectionError
  | otherException
deriving DecidableEq, Repr

/-- The result of one transmission attempt (`requests.post`): an HTTP
response carrying a status code, or a raised exception. -/
inductive AttemptResult where
  | response (status_code : ℤ)
  | raised (e : SendException)
deriving DecidableEq, Repr

/-- The three outcome classes of one attempt, per the spec's
ErrorClassifier. -/
inductive Classification where
  | Success
  | TransientFailure
  | TerminalFailure
deriving DecidableEq, Repr

/-- `is_transient_error` from `src/device/simulated_device.py`: exceptions
`Timeout`/`ConnectionError` are transient, other exceptions are not;
statuses 429/503/504 are transient, 400/401/403/409 are not, and any other
status falls through to `False`. -/
def is_transient_error (status_code : Option ℤ) (exception : Option SendException) :
    Bool :=
  match exception with
  | some e =>
    match e with
    | .timeout => true
    | .connectionError => true
    | .otherException => false
  | none =>
    match status_code with
    | some code =>
      if code ∈ ([429, 503, 504] : List ℤ) then true
      else if code ∈ ([400, 401, 403, 409] : List ℤ) then false
      else false
    | none => false

/-- The per-attempt classification implicit in `send_with_retry`'s branch
order: status 200 → success (return True); status 409 (duplicate
acknowledged) → success (return True); `is_transient_error` → transient
(retry path); any other status → terminal (return False); the `except`
blocks for `Timeout` and `ConnectionError` → transient (retry path); the
catch-all `except Exception` → terminal (return False). -/
def classify_attempt : AttemptResult → Classification
  | .response code =>
    if code = 200 then .Success
    else if code = 409 then .Success
    else if is_transient_error (some code) none then .TransientFailure
    else .TerminalFailure
  | .raised e =>
    match e with
    | .timeout => .TransientFailure
    | .connectionError => .TransientFailure
    | .otherException => .TerminalFailure

/-- Observable events of one send cycle of the device's main loop. -/
inductive DeviceEvent where
  | dropDecision (fired : Bool)
  | jitterDecision (fired : Bool)
  | dupDecision (fired : Bool)
  | transmit (attempt : ℕ)
  | backoffSleep (attempt : ℕ)
deriving DecidableEq, Repr

def DeviceEvent.isTransmit : DeviceEvent → Bool
  | .transmit _ => true
  | _ => false

def DeviceEvent.isBackoffSleep : DeviceEvent → Bool
  | .backoffSleep _ => true
  | _ => false

def DeviceEvent.isDropDecision : DeviceEvent → Bool
  | .dropDecision _ => true
  | _ => false

def DeviceEvent.isJitterDecision : DeviceEvent → Bool
  | .jitterDecision _ => true
  | _ => false

/-- The retry loop of `send_with_retry`, resumed at loop index `attempt`
with `remaining` iterations of `range(MAX_RETRIES + 1)` left. `responses`
gives the transmission result of each attempt. Returns the loop's events
(transmissions and backoff sleeps) in order, and the returned flag
(`True` = delivered, `False` = permanently failed). A transient result
backs off and continues only while `attempt < MAX_RETRIES`, exactly as the
three transient branches of the code do. -/
def send_from (responses : ℕ → AttemptResult) (attempt : ℕ) :
    ℕ → List DeviceEvent × Bool
  | 0 => ([], false)
  | remaining + 1 =>
    match classify_attempt (responses attempt) with
    | .Success => ([.transmit attempt], true)
    | .TerminalFailure => ([.transmit attempt], false)
    | .TransientFailure =>
      if attempt < MAX_RETRIES then
        let rest := send_from responses (attempt + 1) remaining
        (.transmit attempt :: .backoffSleep attempt :: rest.1, rest.2)
      else ([.transmit attempt], false)

/-- `send_with_retry`: run the loop `for attempt in range(MAX_RETRIES + 1)`
from attempt 0. -/
def send_with_retry_trace (responses : ℕ → AttemptResult) :
    List DeviceEvent × Bool :=
  send_from responses 0 (MAX_RETRIES + 1)

/-- The return value of `send_with_retry`. -/
def send_with_retry (responses : ℕ → AttemptResult) : Bool :=
  (send_with_retry_trace responses).2

/-- Number of transmission attempts (`requests.post` calls) performed. -/
def attempts_made (responses : ℕ → AttemptResult) : ℕ :=
  (send_with_retry_trace responses).1.countP (fun e => e.isTransmit)

/-- Number of backoff delays (`time.sleep(backoff)` calls) scheduled. -/
def backoffs_scheduled (responses : ℕ → AttemptResult) : ℕ :=
  (send_with_retry_trace responses).1.countP (fun e => e.isBackoffSleep)

/-- `calculate_backoff`: exponential backoff with jitter. `u` models the
sample of `random.uniform(-BACKOFF_JITTER_RANGE, BACKOFF_JITTER_RANGE)`,
so `jitter = backoff * u`. -/
def calculate_backoff (attempt : ℕ) (u : ℚ) : ℚ :=
  let backoff := min (BASE_BACKOFF_SECONDS * 2 ^ attempt) MAX_BACKOFF_SECONDS
  let jitter := backoff * u
  max (1/10) (backoff + jitter)

/-- The three per-cycle Bernoulli fault decisions of the device
(`simulate_packet_drop`, `simulate_jitter`, `simulate_duplicate`). -/
structure CycleFaults where
  drop : Bool
  jitter : Bool
  dup : Bool
deriving DecidableEq, Repr

/-- One iteration of the device main loop as its event trace: the drop
decision; if it fired the cycle ends; otherwise the jitter decision, the
first `send_with_retry`, then the duplicate decision and, when it fired,
the duplicate resend. `r1` and `r2` give the per-attempt transmission
results of the two possible `send_with_retry` invocations. -/
def main_cycle_trace (faults : CycleFaults) (r1 r2 : ℕ → AttemptResult) :
    List DeviceEvent :=
  if faults.drop then [.dropDecision true]
  else
    .dropDecision false :: .jitterDecision faults.jitter ::
      ((send_with_retry_trace r1).1 ++
        .dupDecision faults.dup ::
          (if faults.dup then (send_with_retry_trace r2).1 else []))

/-- One iteration of the device main loop as the list of `send_with_retry`
invocations it makes: each entry is the sequence id passed and the flag
returned. The loop ignores the flag of the first invocation. -/
def main_cycle_sends (sequence_id : ℤ) (faults : CycleFaults)
    (r1 r2 : ℕ → AttemptResult) : List (ℤ × Bool) :=
  if faults.drop then []
  else if faults.dup then
    [(sequence_id, send_with_retry r1), (sequence_id, send_with_retry r2)]
  else [(sequence_id, send_with_retry r1)]

/-! ### Sender lemmas -/

theorem send_from_step (responses : ℕ → AttemptResult) (attempt remaining : ℕ) :
    send_from responses attempt (remaining + 1) =
      match classify_attempt (responses attempt) with
      | .Success => ([.transmit attempt], true)
      | .TerminalFailure => ([.transmit attempt], false)
      | .TransientFailure =>
        if attempt < MAX_RETRIES then
          (.transmit attempt :: .backoffSleep attempt ::
            (send_from responses (attempt + 1) remaining).1,
           (send_from responses (attempt + 1) remaining).2)
        else ([.transmit attempt], false) := rfl

theorem send_from_success (responses : ℕ → AttemptResult) (attempt remaining : ℕ)
    (h : classify_attempt (responses attempt) = .Success) :
    send_from responses attempt (remaining + 1) = ([.transmit attempt], true) := by
  rw [send_from_step, h]

theorem send_from_terminal (responses : ℕ → AttemptResult) (attempt remaining : ℕ)
    (h : classify_attempt (responses attempt) = .TerminalFailure) :
    send_from responses attempt (remaining + 1) = ([.transmit attempt], false) := by
  rw [send_from_step, h]

theorem send_from_transient_lt (responses : ℕ → AttemptResult) (attempt remaining : ℕ)
    (h : classify_attempt (responses attempt) = .TransientFailure)
    (hlt : attempt < MAX_RETRIES) :
    send_from responses attempt (remaining + 1) =
      (.transmit attempt :: .backoffSleep attempt ::
        (send_from responses (attempt + 1) remaining).1,
       (send_from responses (attempt + 1) remaining).2) := by
  rw [send_from_step, h]
  simp [hlt]

theorem send_from_transient_last (responses : ℕ → AttemptResult) (attempt remaining : ℕ)
    (h : classify_attempt (responses attempt) = .TransientFailure)
    (hge : ¬ attempt < MAX_RETRIES) :
    send_from responses attempt (remaining + 1) = ([.transmit attempt], false) := by
  rw [send_from_step, h]
  simp [hge]

/-- The retry loop emits only transmissions and backoff sleeps: no fault
injector decision occurs inside it. -/
theorem send_from_no_fault_decisions (responses : ℕ → AttemptResult)
    (remaining attempt : ℕ) :
    (send_from responses attempt remaining).1.countP (fun e => e.isDropDecision) = 0 ∧
    (send_from responses attempt remaining).1.countP (fun e => e.isJitterDecision) = 0 := by
  induction remaining generalizing attempt with
  | zero => exact ⟨rfl, rfl⟩
  | succ n ih =>
    cases hcl : classify_attempt (responses attempt) with
    | Success =>
      rw [send_from_success responses attempt n hcl]
      exact ⟨rfl, rfl⟩
    | TerminalFailure =>
      rw [send_from_terminal responses attempt n hcl]
      exact ⟨rfl, rfl⟩
    | TransientFailure =>
      by_cases hlt : attempt < MAX_RETRIES
      · rw [send_from_transient_lt responses attempt n hcl hlt]
        have hd := List.countP_eq_zero.mp (ih (attempt + 1)).1
        have hj := List.countP_eq_zero.mp (ih (attempt + 1)).2
        constructor
        · rw [List.countP_eq_zero]
          intro a ha
          rcases List.mem_cons.1 ha with h | h
          · subst h; simp [DeviceEvent.isDropDecision]
          rcases List.mem_cons.1 h with h2 | h2
          · subst h2; simp [DeviceEvent.isDropDecision]
          · exact hd a h2
        · rw [List.countP_eq_zero]
          intro a ha
          rcases List.mem_cons.1 ha with h | h
          · subst h; simp [DeviceEvent.isJitterDecision]
          rcases List.mem_cons.1 h with h2 | h2
          · subst h2; simp [DeviceEvent.isJitterDecision]
          · exact hj a h2
      · rw [send_from_transient_last responses attempt n hcl hlt]
        exact ⟨rfl, rfl⟩

/-! ### Claim theorems: sender -/

/-- Claim C2: statuses 429, 503, 504 are classified transient (retryable);
400, 401, 403 terminal (not retried); 200 and 409 are success and make
`send_with_retry` return True after a single transmission; transport
timeouts and connection errors are transient; any other status code or
unclassified exception is terminal. -/
theorem C2_error_classification :
    (∀ code ∈ ([429, 503, 504] : List ℤ),
      classify_attempt (.response code) = .TransientFailure) ∧
    (∀ code ∈ ([400, 401, 403] : List ℤ),
      classify_attempt (.response code) = .TerminalFailure) ∧
    classify_attempt (.response 200) = .Success ∧
    classify_attempt (.response 409) = .Success ∧
    (∀ responses : ℕ → AttemptResult,
      responses 0 = .response 200 ∨ responses 0 = .response 409 →
      send_with_retry_trace responses = ([.transmit 0], true)) ∧
    classify_attempt (.raised .timeout) = .TransientFailure ∧
    classify_attempt (.raised .connectionError) = .TransientFailure ∧
    (∀ code : ℤ, code ∉ ([200, 409, 429, 503, 504] : List ℤ) →
      classify_attempt (.response code) = .TerminalFailure) ∧
    classify_attempt (.raised .otherException) = .TerminalFailure := by
  refine ⟨by decide, by decide, by decide, by decide, ?_, rfl, rfl, ?_, rfl⟩
  · intro responses h
    have e : classify_attempt (responses 0) = .Success := by
      rcases h with h | h <;> rw [h] <;> decide
    exact send_from_success responses 0 MAX_RETRIES e
  · intro code hc
    simp only [List.mem_cons, List.not_mem_nil, or_false, not_or] at hc
    obtain ⟨h200, h409, h429, h503, h504⟩ := hc
    simp [classify_attempt, is_transient_error, h200, h409, h429, h503, h504]

/-- Witness for C2 at concrete status codes: 429 transient, 400 terminal,
a run answered 200 (and one answered 409) delivers after one transmission,
and the unlisted status 418 is terminal. -/
theorem C2_error_classification_witness :
    classify_attempt (.response 429) = .TransientFailure ∧
    classify_attempt (.response 400) = .TerminalFailure ∧
    send_with_retry_trace (fun _ => .response 200) = ([.transmit 0], true) ∧
    send_with_retry_trace (fun _ => .response 409) = ([.transmit 0], true) ∧
    classify_attempt (.response 418) = .TerminalFailure :=
  ⟨C2_error_classification.1 429 (by decide),
   C2_error_classification.2.1 400 (by decide),
   C2_error_classification.2.2.2.2.1 (fun _ => .response 200) (Or.inl rfl),
   C2_error_classification.2.2.2.2.1 (fun _ => .response 409) (Or.inr rfl),
   C2_error_classification.2.2.2.2.2.2.2.1 418 (by decide)⟩

/-- Claim C3: when every attempt yields a transient outcome,
`send_with_retry` performs exactly MAX_RETRIES + 1 transmissions, schedules
exactly MAX_RETRIES backoff delays (none after the final attempt), and
returns permanent failure (False). -/
theorem C3_all_transient_exhausts (responses : ℕ → AttemptResult)
    (h : ∀ n, n ≤ MAX_RETRIES → classify_attempt (responses n) = .TransientFailure) :
    send_with_retry responses = false ∧
    attempts_made responses = MAX_RETRIES + 1 ∧
    backoffs_scheduled responses = MAX_RETRIES := by
  have h0 := h 0 (by decide)
  have h1 := h 1 (by decide)
  have h2 := h 2 (by decide)
  have h3 := h 3 (by decide)
  have h4 := h 4 (by decide)
  have h5 := h 5 (by decide)
  have etrace : send_with_retry_trace responses =
      ([.transmit 0, .backoffSleep 0, .transmit 1, .backoffSleep 1, .transmit 2,
        .backoffSleep 2, .transmit 3, .backoffSleep 3, .transmit 4, .backoffSleep 4,
        .transmit 5], false) := by
    simp [send_with_retry_trace, send_from, MAX_RETRIES, h0, h1, h2, h3, h4, h5]
  refine ⟨?_, ?_, ?_⟩
  · rw [send_with_retry, etrace]
  · rw [attempts_made, etrace]
    decide
  · rw [backoffs_scheduled, etrace]
    decide

/-- Witness for C3: every attempt times out; six transmissions, five
backoffs, permanent failure. -/
theorem C3_all_transient_exhausts_witness :
    send_with_retry (fun _ => .raised .timeout) = false ∧
    attempts_made (fun _ => .raised .timeout) = MAX_RETRIES + 1 ∧
    backoffs_scheduled (fun _ => .raised .timeout) = MAX_RETRIES :=
  C3_all_transient_exhausts (fun _ => .raised .timeout) (fun _ _ => rfl)

/-- Claim C8: for every attempt and every jitter sample in the symmetric
±50% range, `calculate_backoff` returns a delay within
[0.1, MAX_BACKOFF_SECONDS * 1.5] = [1/10, 45]: the capped exponential value
is perturbed by the jitter and floored at 0.1. -/
theorem C8_backoff_bounds (attempt : ℕ) (u : ℚ)
    (hlo : -BACKOFF_JITTER_RANGE ≤ u) (hhi : u ≤ BACKOFF_JITTER_RANGE) :
    1/10 ≤ calculate_backoff attempt u ∧ calculate_backoff attempt u ≤ 45 := by
  simp only [BACKOFF_JITTER_RANGE] at hlo hhi
  have hcb : calculate_backoff attempt u =
      max (1/10)
        (min ((1 : ℚ) * 2 ^ attempt) 30 + min ((1 : ℚ) * 2 ^ attempt) 30 * u) := rfl
  rw [hcb]
  constructor
  · exact le_max_left _ _
  · apply max_le
    · norm_num
    · have hb0 : (0 : ℚ) ≤ min ((1 : ℚ) * 2 ^ attempt) 30 := by
        apply le_min
        · positivity
        · norm_num
      have hble : min ((1 : ℚ) * 2 ^ attempt) 30 ≤ 30 := min_le_right _ _
      have hbu : min ((1 : ℚ) * 2 ^ attempt) 30 * u ≤
          min ((1 : ℚ) * 2 ^ attempt) 30 * (1 / 2) :=
        mul_le_mul_of_nonneg_left hhi hb0
      linarith

/-- Witness for C8: attempt 3 with a zero jitter sample stays within
[1/10, 45]. -/
theorem C8_backoff_bounds_witness :
    1/10 ≤ calculate_backoff 3 0 ∧ calculate_backoff 3 0 ≤ 45 :=
  C8_backoff_bounds 3 0 (by norm_num [BACKOFF_JITTER_RANGE])
    (by norm_num [BACKOFF_JITTER_RANGE])

/-- Counterexample to claim C6: all six attempts of the first delivery
return status 503, so `send_with_retry` returns permanent failure, yet the
main loop still evaluates the duplicate decision and, it having fired,
resends the same sequence id — the loop ignores `send_with_retry`'s return
value. -/
theorem C6_counterexample :
    send_with_retry (fun _ => .response 503) = false ∧
    main_cycle_sends 42 ⟨false, false, true⟩ (fun _ => .response 503)
        (fun _ => .response 503) =
      [(42, false), (42, false)] := by
  constructor
  · decide
  · decide

/-- Claim C6 amended: in every non-dropped send cycle the duplicate
decision is evaluated after `send_with_retry` returns, regardless of its
result; when it fires, the same message (identical sequence id) is resent
through a fresh `send_with_retry` invocation after a short fixed pause —
even when the first delivery permanently failed. -/
theorem C6_duplicate_decision_unconditional :
    ∀ (seq : ℤ) (faults : CycleFaults) (r1 r2 : ℕ → AttemptResult),
      faults.drop = false →
      main_cycle_sends seq faults r1 r2 =
        if faults.dup then
          [(seq, send_with_retry r1), (seq, send_with_retry r2)]
        else [(seq, send_with_retry r1)] := by
  intro seq faults r1 r2 hdrop
  simp [main_cycle_sends, hdrop]

/-- Witness for C6 amended: a failed first delivery (all 503) followed by a
duplicate resend of the same sequence id. -/
theorem C6_duplicate_decision_unconditional_witness :
    main_cycle_sends 42 ⟨false, true, true⟩ (fun _ => .response 503)
        (fun _ => .response 200) =
      [(42, send_with_retry (fun _ => .response 503)),
       (42, send_with_retry (fun _ => .response 200))] :=
  C6_duplicate_decision_unconditional 42 ⟨false, true, true⟩
    (fun _ => .response 503) (fun _ => .response 200) rfl

/-- Counterexample to claim C7: a cycle whose first attempt is transient
(503) and whose retry succeeds performs two transmissions, yet the fault
injector's drop and delay decisions are each invoked exactly once, before
the first transmission — the retry attempt does not re-invoke them. -/
theorem C7_counterexample :
    main_cycle_trace ⟨false, false, false⟩
        (fun n => if n = 0 then .response 503 else .response 200)
        (fun _ => .response 200) =
      [.dropDecision false, .jitterDecision false, .transmit 0, .backoffSleep 0,
       .transmit 1, .dupDecision false] ∧
    (main_cycle_trace ⟨false, false, false⟩
        (fun n => if n = 0 then .response 503 else .response 200)
        (fun _ => .response 200)).countP (fun e => e.isTransmit) = 2 ∧
    (main_cycle_trace ⟨false, false, false⟩
        (fun n => if n = 0 then .response 503 else .response 200)
        (fun _ => .response 200)).countP (fun e => e.isJitterDecision) = 1 ∧
    (main_cycle_trace ⟨false, false, false⟩
        (fun n => if n = 0 then .response 503 else .response 200)
        (fun _ => .response 200)).countP (fun e => e.isDropDecision) = 1 := by
  refine ⟨by decide, by decide, by decide, by decide⟩

/-- Claim C7 amended: the drop and the delay (jitter) decisions are invoked
exactly once per send cycle, before the first transmission — not once per
attempt; the attempts of the retry loop only transmit and sleep, and never
re-invoke the fault injector. -/
theorem C7_fault_decisions_once_per_cycle :
    ∀ (faults : CycleFaults) (r1 r2 : ℕ → AttemptResult),
      faults.drop = false →
      ∃ rest : List DeviceEvent,
        main_cycle_trace faults r1 r2 =
          .dropDecision false :: .jitterDecision faults.jitter :: rest ∧
        rest.countP (fun e => e.isDropDecision) = 0 ∧
        rest.countP (fun e => e.isJitterDecision) = 0 := by
  intro faults r1 r2 hdrop
  refine ⟨(send_with_retry_trace r1).1 ++
    .dupDecision faults.dup ::
      (if faults.dup then (send_with_retry_trace r2).1 else []), ?_, ?_, ?_⟩
  · rw [main_cycle_trace, if_neg (by simp [hdrop])]
  · rw [List.countP_eq_zero]
    intro a ha
    rcases List.mem_append.1 ha with h | h
    · exact List.countP_eq_zero.mp
        (send_from_no_fault_decisions r1 (MAX_RETRIES + 1) 0).1 a h
    rcases List.mem_cons.1 h with h2 | h2
    · subst h2; simp [DeviceEvent.isDropDecision]
    · by_cases hdup : faults.dup
      · rw [if_pos hdup] at h2
        exact List.countP_eq_zero.mp
          (send_from_no_fault_decisions r2 (MAX_RETRIES + 1) 0).1 a h2
      · rw [if_neg hdup] at h2
        simp at h2
  · rw [List.countP_eq_zero]
    intro a ha
    rcases List.mem_append.1 ha with h | h
    · exact List.countP_eq_zero.mp
        (send_from_no_fault_decisions r1 (MAX_RETRIES + 1) 0).2 a h
    rcases List.mem_cons.1 h with h2 | h2
    · subst h2; simp [DeviceEvent.isJitterDecision]
    · by_cases hdup : faults.dup
      · rw [if_pos hdup] at h2
        exact List.countP_eq_zero.mp
          (send_from_no_fault_decisions r2 (MAX_RETRIES + 1) 0).2 a h2
      · rw [if_neg hdup] at h2
        simp at h2

/-- Witness for C7 amended: a concrete non-dropped cycle with the jitter
decision fired. -/
theorem C7_fault_decisions_once_per_cycle_witness :
    ∃ rest : List DeviceEvent,
      main_cycle_trace ⟨false, true, false⟩ (fun _ => .response 200)
          (fun _ => .response 200) =
        .dropDecision false :: .jitterDecision true :: rest ∧
      rest.countP (fun e => e.isDropDecision) = 0 ∧
      rest.countP (fun e => e.isJitterDecision) = 0 :=
  C7_fault_decisions_once_per_cycle ⟨false, true, false⟩
    (fun _ => .response 200) (fun _ => .response 200) rfl

/-! ### Concurrency model of the dedup check-then-act (C9) -/

/-- Thread-local state of one in-flight `/ingest` request that has already
passed the overload and validation gates: about to call `has_seen`;
returned from `has_seen` holding its answer; or finished with an outcome.
The gap between `checked` and `done` is the preemption point between the
`has_seen` call and the `mark_seen` call in `ingest_telemetry` — nothing in
`MessageCache` guards it. -/
inductive HandlerState where
  | start
  | checked (seen : Bool)
  | done (o : Outcome)
deriving DecidableEq, Repr

/-- One atomic step of such a request against the shared cache: the
`has_seen` call (with its lazy cleanup), then separately the continuation,
which trusts the recorded answer — `mark_seen` and accept when it was
false, duplicate-acknowledge when it was true. -/
def handler_step (now : ℚ) (d : String) (s : ℤ) (c : MessageCache) :
    HandlerState → MessageCache × HandlerState
  | .start =>
    let hs := c.has_seen now d s
    (hs.2, .checked hs.1)
  | .checked seen =>
    if seen then (c, .done .DuplicateAcknowledged)
    else (c.mark_seen now d s, .done .Accepted)
  | .done o => (c, .done o)

/-- Interleaved execution of two concurrent identical requests over the
shared cache: `true` schedules a step of the first handler, `false` one of
the second. -/
def interleave_run (now : ℚ) (d : String) (s : ℤ) :
    List Bool → MessageCache × HandlerState × HandlerState →
      MessageCache × HandlerState × HandlerState
  | [], st => st
  | pick :: rest, (c, h1, h2) =>
    if pick then
      let r := handler_step now d s c h1
      interleave_run now d s rest (r.1, r.2, h2)
    else
      let r := handler_step now d s c h2
      interleave_run now d s rest (r.1, h1, r.2)

/-- Claim C9 (code-bug exhibit): `MessageCache` has no lock, so the
check-then-act pair of `ingest_telemetry` is not atomic. Interleaving two
concurrent identical requests (key `device-001:7`, empty cache, no
overload) as check, check, act, act makes BOTH return `Accepted`, while the
serialized schedule (check, act, check, act) returns one `Accepted` and one
`DuplicateAcknowledged` as the claim demands. -/
theorem C9_race_both_accepted :
    ((interleave_run 0 "device-001" 7 [true, false, true, false]
        (MessageCache.init 300, .start, .start)).2.1 = .done .Accepted ∧
      (interleave_run 0 "device-001" 7 [true, false, true, false]
        (MessageCache.init 300, .start, .start)).2.2 = .done .Accepted) ∧
    ((interleave_run 0 "device-001" 7 [true, true, false, false]
        (MessageCache.init 300, .start, .start)).2.1 = .done .Accepted ∧
      (interleave_run 0 "device-001" 7 [true, true, false, false]
        (MessageCache.init 300, .start, .start)).2.2 =
          .done .DuplicateAcknowledged) := by
  refine ⟨⟨rfl, rfl⟩, ⟨rfl, ?_⟩⟩
  have hkey : (((MessageCache.init 300).cleanup 0).mark_seen 0 "device-001" 7).cache
      (mkKey "device-001" 7) = some ((0 : ℚ) + 300) := rfl
  have hseen : ((((MessageCache.init 300).cleanup 0).mark_seen 0 "device-001" 7).has_seen
      0 "device-001" 7).1 = true := by
    rw [has_seen_fst_eq,
      cleanup_keeps _ 0 _ ((0 : ℚ) + 300) hkey (by rw [zero_add]; decide)]
    rfl
  show (interleave_run 0 "device-001" 7 [false]
      ((((MessageCache.init 300).cleanup 0).mark_seen 0 "device-001" 7).cleanup 0,
       HandlerState.done Outcome.Accepted,
       HandlerState.checked ((((MessageCache.init 300).cleanup 0).mark_seen 0
         "device-001" 7).has_seen 0 "device-001" 7).1)).2.2 =
    HandlerState.done Outcome.DuplicateAcknowledged
  rw [hseen]
  rfl

end Telemetry
